import Mathlib

/-!
Verification of the push-consumer core of `ali-ons`
(src/lib/consumer/mq_push_consumer.js), as a shallow embedding.

The single source file under verification is `mq_push_consumer.js`.  Pure
helpers are translated to Lean functions; the stateful pull step and the
rebalance removal pass are translated to explicit state-passing functions
that additionally record the calls made to the offset store and to the
event emitter as a list of `Effect`s.  Collaborators that live outside the
source file (ProcessQueue, MessageQueue, the offset stores, MixAll,
utils.hashCode, the ConsumeFromWhere enum) are modelled from the spec, as
marked on each definition.
-/

namespace AliOns

/-- Modelled from the spec: `MessageQueue` (lib/message_queue.js is not
under src/): the immutable identity `{topic, brokerName, queueId}`. -/
structure MessageQueue where
  topic : String
  brokerName : String
  queueId : Nat
deriving DecidableEq, Repr

/-- Modelled from the spec: the canonical string key `"topic@broker@id"`
of a message queue (lib/message_queue.js is not under src/). -/
def MessageQueue.key (mq : MessageQueue) : String :=
  mq.topic ++ "@" ++ mq.brokerName ++ "@" ++ toString mq.queueId

/-- Modelled from the spec: `ProcessQueue` (lib/process_queue.js is not
under src/): per-queue runtime state `{lastPullTimestamp, dropped,
isPullExpired}`.  The field spelling `droped` follows the consumer source,
which reads and writes `processQueue.droped`.  `isPullExpired` is kept as
an abstract boolean (in the repo it is derived from `lastPullTimestamp`
and a 2-minute threshold). -/
structure ProcessQueue where
  droped : Bool
  lastPullTimestamp : Int
  isPullExpired : Bool
deriving DecidableEq, Repr

/-- A row of the process-queue table (`mq_push_consumer.js` lines
490-494): `{messageQueue, processQueue, nextOffset}`. -/
structure PullRequest where
  messageQueue : MessageQueue
  processQueue : ProcessQueue
  nextOffset : Int
deriving DecidableEq, Repr

/-- A fetched message as seen by the tag filter and the offset advance:
its `tags` property (absent or a string) and its `queueOffset`. -/
structure Msg where
  tags : Option String
  queueOffset : Int
deriving DecidableEq, Repr

/-- Modelled from the spec: the pull statuses of
lib/consumer/pull_status.js (not under src/), exactly the four branches
the consumer switches over. -/
inductive PullStatus where
  | FOUND
  | NO_NEW_MSG
  | NO_MATCHED_MSG
  | OFFSET_ILLEGAL
deriving DecidableEq, Repr

/-- The pull result consumed by `executePullRequestImmediately`:
`{pullStatus, nextBeginOffset, suggestWhichBrokerId, msgFoundList}`. -/
structure PullResult where
  pullStatus : PullStatus
  nextBeginOffset : Int
  suggestWhichBrokerId : Nat
  msgFoundList : List Msg
deriving DecidableEq, Repr

/-- The subscription object built by `buildSubscriptionData`
(mq_push_consumer.js lines 157-164). -/
structure SubscriptionData where
  topic : String
  subString : String
  classFilterMode : Bool
  tagsSet : List String
  codeSet : List Int
  subVersion : Int
deriving DecidableEq, Repr

/-- Modelled from the spec: `MixAll.RETRY_GROUP_TOPIC_PREFIX` is the
well-known retry-topic marker `"%RETRY%"` (lib/mix_all.js is not under
src/). -/
def retryGroupTopicMark : String := "%RETRY%"

/-- `messageQueue.topic.indexOf(MixAll.RETRY_GROUP_TOPIC_PREFIX) === 0`
(mq_push_consumer.js lines 528 and 549): the topic starts with the
retry marker. -/
def isRetryTopic (topic : String) : Bool :=
  retryGroupTopicMark.data.isPrefixOf topic.data

/-- Modelled from the spec: `utils.hashCode` (lib/utils.js is not under
src/): the 31-multiplier rolling hash matching Java `String.hashCode`,
wrapped to a signed 32-bit integer.  We hash Unicode scalar values, which
agrees with UTF-16 code units on the basic multilingual plane. -/
def hashCode (s : String) : Int :=
  let h := s.data.foldl (fun (h : Nat) c => (31 * h + c.toNat) % 4294967296) 0
  if h < 2147483648 then (h : Int) else (h : Int) - 4294967296

/-- One step of the JS `String.prototype.split('||')` embedding: prepend
a character to the first token of an already-split tail. -/
def prependChar (c : Char) (l : List String) : List String :=
  match l with
  | [] => [String.mk [c]]
  | t :: ts => (String.mk [c] ++ t) :: ts

/-- Embedding of the JS call `subString.split('||')`
(mq_push_consumer.js line 168) on the character list: scan left to right,
a non-overlapping `||` ends the current token; a lone `|` is an ordinary
character. -/
def splitDP : List Char → List String
  | [] => [""]
  | '|' :: '|' :: rest => "" :: splitDP rest
  | c :: rest => prependChar c (splitDP rest)

/-- `subString.split('||')` on strings. -/
def jsSplitDoublePipe (s : String) : List String :=
  splitDP s.data

/-- A character JS `String.prototype.trim` strips: whitespace and line
terminators. -/
def isJsWhitespace (c : Char) : Bool :=
  c = ' ' ∨ c = '\t' ∨ c = '\n' ∨ c = '\r' ∨ c = '\x0b' ∨ c = '\x0c'

/-- Embedding of the JS call `tag.trim()` (mq_push_consumer.js line 171):
strip leading and trailing whitespace. -/
def jsTrim (s : String) : String :=
  String.mk (((s.data.dropWhile isJsWhitespace).reverse.dropWhile isJsWhitespace).reverse)

/-- `buildSubscriptionData(consumerGroup, topic, subString)`
(mq_push_consumer.js lines 156-182).  `nowMs` stands for the `Date.now()`
used for `subVersion`; the absent/undefined expression is `none`; the JS
`throw` is the `Except.error` branch.  The source's loop that trims each
token and pushes the non-empty ones (with their hashes) in order is
rendered as map-filter over the split list. -/
def buildSubscriptionData (consumerGroup topic : String)
    (subString : Option String) (nowMs : Int) : Except String SubscriptionData :=
  let _ := consumerGroup
  let base : SubscriptionData :=
    { topic := topic, subString := subString.getD ""
      classFilterMode := false, tagsSet := [], codeSet := [], subVersion := nowMs }
  match subString with
  | none => .ok { base with subString := "*" }
  | some s =>
    if s = "*" ∨ s = "" then .ok { base with subString := "*" }
    else
      let tags := jsSplitDoublePipe s
      if tags.length ≠ 0 then
        let kept := (tags.map jsTrim).filter (fun t => t ≠ "")
        .ok { base with subString := s, tagsSet := kept, codeSet := kept.map hashCode }
      else .error "[mq:consumer] subString split error"

/-- The per-message tag predicate of the FOUND branch
(mq_push_consumer.js lines 265-270): keep a message iff `msg.tags` is
truthy (present and non-empty) and `tagsSet.indexOf(msg.tags) >= 0`. -/
def tagMatch (tagsSet : List String) (msg : Msg) : Bool :=
  match msg.tags with
  | some t => t ≠ "" && tagsSet.contains t
  | none => false

/-- The FOUND-branch filter guard and filter (mq_push_consumer.js lines
264-271): filter only when `tagsSet` is non-empty and class-filter mode
is off; otherwise the fetched list passes through unchanged. -/
def applyTagFilter (sub : SubscriptionData) (msgList : List Msg) : List Msg :=
  if ¬sub.tagsSet.isEmpty ∧ ¬sub.classFilterMode then
    msgList.filter (tagMatch sub.tagsSet)
  else msgList

/-- One entry of the process-queue table: key paired with its row. -/
abbrev TableEntry := String × PullRequest

/-- `this._processQueueTable.has(key)`. -/
def tableHas (tbl : List TableEntry) (key : String) : Bool :=
  tbl.any (fun e => e.1 = key)

/-- `this._processQueueTable.get(key)`. -/
def tableGet (tbl : List TableEntry) (key : String) : Option PullRequest :=
  (tbl.find? (fun e => e.1 = key)).map (fun e => e.2)

/-- `this._processQueueTable.set(key, v)`: replace in place when present
(this also models the JS in-place mutation of the row object held in the
map), append otherwise. -/
def tableSet (tbl : List TableEntry) (key : String) (v : PullRequest) : List TableEntry :=
  if tableHas tbl key then
    tbl.map (fun e => if e.1 = key then (key, v) else e)
  else tbl ++ [(key, v)]

/-- `this._processQueueTable.delete(key)`. -/
def tableDelete (tbl : List TableEntry) (key : String) : List TableEntry :=
  tbl.filter (fun e => e.1 ≠ key)

/-- The consumer state touched by the claims: the process-queue table,
the subscription table and the broadcast switch. -/
structure ConsumerState where
  processQueueTable : List TableEntry
  subscriptions : List (String × SubscriptionData)
  isBroadcast : Bool
deriving DecidableEq, Repr

/-- `this.subscriptions.get(topic)`. -/
def subsGet (subs : List (String × SubscriptionData)) (topic : String) : Option SubscriptionData :=
  (subs.find? (fun e => e.1 = topic)).map (fun e => e.2)

/-- Observable calls the pull step and the rebalance removal pass make on
the offset store, the wire and the event emitter. -/
inductive Effect where
  | updateOffset (mq : MessageQueue) (offset : Int) (increaseOnly : Bool)
  | persist (mq : MessageQueue)
  | removeOffset (mq : MessageQueue)
  | pullRequestSent (queueOffset commitOffset : Int)
  | emitMessage (msgs : List Msg)
  | sleepMs (ms : Nat)
deriving DecidableEq, Repr

/-- `defaultOptions.pullTimeDelayMillsWhenException` (line 27). -/
def pullTimeDelayMillsWhenException : Nat := 3000

/-- The hard-coded per-batch delivery timer of the FOUND branch
(line 281): 3000 milliseconds. -/
def messageProcessTimeoutMillis : Nat := 3000

/-- The environment of one execution of `executePullRequestImmediately`:
the responses of the collaborators it awaits.  `dropDuringRpc` models a
concurrent rebalance (or `removeProcessQueue`) setting `droped = true`
while the pull RPC is outstanding — the only interleaving the temporal
claims need; `ackWithinTimeout` models whether the user's ack callback
fires before the `messageProcessTimeoutMillis` timer. -/
structure PullEnv where
  now : Int
  readMemoryOffset : Int
  pullResult : PullResult
  dropDuringRpc : Bool
  ackWithinTimeout : Bool
deriving DecidableEq, Repr

/-- The outcome of one execution of the pull body: the new state, the
recorded effects in order, and whether the body threw (a rejected await
propagates to `pullMessageQueue`'s catch). -/
structure StepOut where
  state : ConsumerState
  effects : List Effect
  threw : Bool
deriving DecidableEq, Repr

/-- The JS truthiness assignment of lines 248-251: `if (offset)
commitOffset = offset` starting from `commitOffset = 0`; any non-zero
value — including -1 — passes through. -/
def jsTruthyOr0 (offset : Int) : Int :=
  if offset ≠ 0 then offset else 0

/-- `Number(msgList[msgList.length - 1].queueOffset)` of the filtered
batch (line 276); 0 on the empty list (unreachable at its use site). -/
def lastQueueOffset (l : List Msg) : Int :=
  ((l.getLast?).map Msg.queueOffset).getD 0

/-- `executePullRequestImmediately(messageQueue)` (lines 222-314) as a
state-and-effects function.  The early returns, the commitOffset
computation, the pull request header hand-off (recorded as
`pullRequestSent queueOffset commitOffset`), the `nextOffset` update, the
four status branches and the trailing `set` of line 313 follow the source
line by line.  In the OFFSET_ILLEGAL branch, `removeProcessQueue`
(lines 575-584) deletes the key, persists and removes the stored offset
(`removeUnnecessaryMessageQueue`, lines 591-596; its write of `droped`
onto the table row object is a no-op on the row's own fields and is not
modelled), after which line 313 re-inserts the row. -/
def executePullRequestImmediately (st : ConsumerState) (env : PullEnv)
    (mq : MessageQueue) : StepOut :=
  match tableGet st.processQueueTable mq.key with
  | none => ⟨st, [], false⟩
  | some pr0 =>
    if pr0.processQueue.droped then ⟨st, [], false⟩
    else
      let pr1 : PullRequest :=
        { pr0 with processQueue := { pr0.processQueue with lastPullTimestamp := env.now } }
      let tbl1 := tableSet st.processQueueTable mq.key pr1
      match subsGet st.subscriptions mq.topic with
      | none =>
        ⟨{ st with processQueueTable := tbl1 },
         [Effect.sleepMs pullTimeDelayMillsWhenException], false⟩
      | some sub =>
        let commitOffset : Int :=
          if st.isBroadcast then 0 else jsTruthyOr0 env.readMemoryOffset
        let res := env.pullResult
        let eff0 : List Effect := [Effect.pullRequestSent pr1.nextOffset commitOffset]
        let pr2 : PullRequest :=
          if env.dropDuringRpc then
            { pr1 with processQueue := { pr1.processQueue with droped := true } }
          else pr1
        let pr3 : PullRequest := { pr2 with nextOffset := res.nextBeginOffset }
        let tbl2 := tableSet tbl1 mq.key pr3
        match res.pullStatus with
        | PullStatus.FOUND =>
          let msgList := applyTagFilter sub res.msgFoundList
          if msgList.isEmpty then
            ⟨{ st with processQueueTable := tableSet tbl2 mq.key pr3 }, eff0, false⟩
          else if env.ackWithinTimeout then
            ⟨{ st with processQueueTable := tableSet tbl2 mq.key pr3 },
             eff0 ++ [Effect.emitMessage msgList,
                      Effect.updateOffset mq (lastQueueOffset msgList + 1) false],
             false⟩
          else
            ⟨{ st with processQueueTable := tbl2 },
             eff0 ++ [Effect.emitMessage msgList], true⟩
        | PullStatus.NO_NEW_MSG =>
          ⟨{ st with processQueueTable := tableSet tbl2 mq.key pr3 },
           eff0 ++ [Effect.updateOffset mq pr3.nextOffset true], false⟩
        | PullStatus.NO_MATCHED_MSG =>
          ⟨{ st with processQueueTable := tableSet tbl2 mq.key pr3 },
           eff0 ++ [Effect.updateOffset mq pr3.nextOffset true], false⟩
        | PullStatus.OFFSET_ILLEGAL =>
          let pr4 : PullRequest :=
            { pr3 with processQueue := { pr3.processQueue with droped := true } }
          let tbl3 := tableSet tbl2 mq.key pr4
          let tbl4 := tableDelete tbl3 mq.key
          ⟨{ st with processQueueTable := tableSet tbl4 mq.key pr4 },
           eff0 ++ [Effect.sleepMs 10000,
                    Effect.updateOffset mq pr4.nextOffset false,
                    Effect.persist mq, Effect.persist mq, Effect.removeOffset mq],
           false⟩

/-- The guard of the per-queue pull worker loop (`pullMessageQueue`,
line 201): the worker keeps looping exactly while the process-queue
table has the queue's key. -/
def pullLoopContinues (st : ConsumerState) (mq : MessageQueue) : Bool :=
  tableHas st.processQueueTable mq.key

/-- Modelled from the spec: the `ConsumeFromWhere` policy enum
(lib/consumer/consume_from_where.js is not under src/); exactly the six
values the source switches over, the first four being the
last-offset family. -/
inductive ConsumeFromWhere where
  | CONSUME_FROM_LAST_OFFSET
  | CONSUME_FROM_LAST_OFFSET_AND_FROM_MIN_WHEN_BOOT_FIRST
  | CONSUME_FROM_MIN_OFFSET
  | CONSUME_FROM_MAX_OFFSET
  | CONSUME_FROM_FIRST_OFFSET
  | CONSUME_FROM_TIMESTAMP
deriving DecidableEq, Repr

/-- The four case labels that share the CONSUME_FROM_LAST_OFFSET branch
(lines 519-522). -/
def isLastOffsetPolicy : ConsumeFromWhere → Bool
  | ConsumeFromWhere.CONSUME_FROM_LAST_OFFSET => true
  | ConsumeFromWhere.CONSUME_FROM_LAST_OFFSET_AND_FROM_MIN_WHEN_BOOT_FIRST => true
  | ConsumeFromWhere.CONSUME_FROM_MIN_OFFSET => true
  | ConsumeFromWhere.CONSUME_FROM_MAX_OFFSET => true
  | _ => false

/-- `computePullFromWhere(messageQueue)` (lines 512-568).  The awaited
collaborators are oracles: `readStoreOffset` is
`offsetStore.readOffset(mq, READ_FROM_STORE)`, `maxOffsetRes` is
`mqClient.maxOffset(mq)` and `searchOffsetAtTimestamp` is
`mqClient.searchOffset(mq, parseDate(consumeTimestamp).getTime())` (the
date parse is folded into the oracle); `Except.error` means the await
threw, which lands in the catch of line 563 and yields -1. -/
def computePullFromWhere (cfw : ConsumeFromWhere) (topic : String)
    (readStoreOffset : Except Unit Int)
    (maxOffsetRes : Except Unit Int)
    (searchOffsetAtTimestamp : Except Unit Int) : Int :=
  match readStoreOffset with
  | .error _ => -1
  | .ok lastOffset =>
    match cfw with
    | ConsumeFromWhere.CONSUME_FROM_LAST_OFFSET
    | ConsumeFromWhere.CONSUME_FROM_LAST_OFFSET_AND_FROM_MIN_WHEN_BOOT_FIRST
    | ConsumeFromWhere.CONSUME_FROM_MIN_OFFSET
    | ConsumeFromWhere.CONSUME_FROM_MAX_OFFSET =>
      if lastOffset ≥ 0 then lastOffset
      else if lastOffset = -1 then
        if isRetryTopic topic then 0
        else match maxOffsetRes with
          | .ok v => v
          | .error _ => -1
      else -1
    | ConsumeFromWhere.CONSUME_FROM_FIRST_OFFSET =>
      if lastOffset ≥ 0 then lastOffset else 0
    | ConsumeFromWhere.CONSUME_FROM_TIMESTAMP =>
      if lastOffset ≥ 0 then lastOffset
      else if lastOffset = -1 then
        if isRetryTopic topic then
          match maxOffsetRes with
          | .ok v => v
          | .error _ => -1
        else
          match searchOffsetAtTimestamp with
          | .ok v => v
          | .error _ => -1
      else -1

/-- The result of the removal pass of `updateProcessQueueTableInRebalance`
(lines 449-474): the surviving table, the offset-store calls, the
`changed` flag, and the keys whose rows were marked `droped = true`
just before their removal (the marked rows leave the table, so the flag
write is recorded here rather than in the table). -/
structure RemovePassOut where
  table : List TableEntry
  effects : List Effect
  changed : Bool
  droppedKeys : List String
deriving DecidableEq, Repr

/-- The body of the removal loop for one visited entry (lines 450-473):
for an entry of the rebalanced topic that is not in the assigned set —
membership tested by queue key, as `mqSet.some(mq => mq.key ===
messageQueue.key)` does — and otherwise for an entry whose queue is pull
expired (the consumer's `consumeType` is the constant
CONSUME_PASSIVELY), mark it dropped, persist and remove its offset
(`removeUnnecessaryMessageQueue`, which always reports success), and
delete its key. -/
def removePassStep (topic : String) (mqSet : List MessageQueue)
    (acc : RemovePassOut) (entry : TableEntry) : RemovePassOut :=
  let messageQueue := entry.2.messageQueue
  if topic = messageQueue.topic then
    if ¬mqSet.any (fun m => m.key = messageQueue.key) then
      { table := tableDelete acc.table entry.1,
        effects := acc.effects ++ [Effect.persist messageQueue, Effect.removeOffset messageQueue],
        changed := true,
        droppedKeys := acc.droppedKeys ++ [entry.1] }
    else acc
  else if entry.2.processQueue.isPullExpired then
    { table := tableDelete acc.table entry.1,
      effects := acc.effects ++ [Effect.persist messageQueue, Effect.removeOffset messageQueue],
      changed := true,
      droppedKeys := acc.droppedKeys ++ [entry.1] }
  else acc

/-- The removal pass of `updateProcessQueueTableInRebalance(topic, mqSet)`
(lines 446-474): visit every entry of the table, deleting the evicted
keys from it as the source's live iteration over the map does. -/
def updateProcessQueueTableRemovePass (topic : String) (mqSet : List MessageQueue)
    (tbl : List TableEntry) : RemovePassOut :=
  tbl.foldl (removePassStep topic mqSet)
    { table := tbl, effects := [], changed := false, droppedKeys := [] }

/-- The eviction condition of the removal pass, as a single boolean over
one table entry: the nested conditionals of lines 458-467 evict exactly
the entries of the rebalanced topic whose key is not among the assigned
queues, and the entries of other topics that are pull expired. -/
def evictsEntry (topic : String) (mqSet : List MessageQueue) (e : TableEntry) : Bool :=
  (topic = e.2.messageQueue.topic && !mqSet.any (fun m => m.key = e.2.messageQueue.key))
    || (!(topic = e.2.messageQueue.topic : Bool) && e.2.processQueue.isPullExpired)

/-- The offset-store calls `removeUnnecessaryMessageQueue` makes for one
evicted entry (lines 591-596). -/
def evictEffects (e : TableEntry) : List Effect :=
  [Effect.persist e.2.messageQueue, Effect.removeOffset e.2.messageQueue]

/-- Rebuild a `||`-separated expression from tokens (test harness for the
subscription parser; inverse direction of `jsSplitDoublePipe`). -/
def joinTags : List String → String
  | [] => ""
  | [t] => t
  | t :: ts => t ++ "||" ++ joinTags ts

/-- Fixture: a queue of topic `TopicA`. -/
def mq0 : MessageQueue := ⟨"TopicA", "broker-a", 0⟩

/-- Fixture: the match-all subscription for `TopicA`. -/
def subStar : SubscriptionData := ⟨"TopicA", "*", false, [], [], 0⟩

/-- Fixture: a live pull request for `mq0` at `nextOffset` 50. -/
def pr50 : PullRequest := ⟨mq0, ⟨false, 0, false⟩, 50⟩

/-- Fixture: a cluster-mode consumer owning `mq0`, subscribed to
`TopicA`. -/
def st0 : ConsumerState := ⟨[(mq0.key, pr50)], [("TopicA", subStar)], false⟩

/-- Fixture: a pull that answers OFFSET_ILLEGAL with
`nextBeginOffset = 100`. -/
def envOffsetIllegal : PullEnv := ⟨1, 50, ⟨PullStatus.OFFSET_ILLEGAL, 100, 0, []⟩, false, true⟩

/-- Fixture: the row of `mq0` already marked dropped. -/
def prDropped : PullRequest := ⟨mq0, ⟨true, 0, false⟩, 50⟩

/-- Fixture: consumer state whose table still holds the dropped row of
`mq0` — the state `executePullRequestImmediately` leaves behind after an
OFFSET_ILLEGAL pull. -/
def stDropped : ConsumerState := ⟨[(mq0.key, prDropped)], [("TopicA", subStar)], false⟩

/-- Fixture: a FOUND pull delivering one message at queue offset 0 whose
RPC completes after a concurrent drop of the queue; the user acks in
time. -/
def envDropFound : PullEnv := ⟨1, 50, ⟨PullStatus.FOUND, 1, 0, [⟨none, 0⟩]⟩, true, true⟩

/-- Fixture: a FOUND pull (empty batch) issued while the in-memory
offset store reports -1 (absent). -/
def envMemNeg : PullEnv := ⟨1, -1, ⟨PullStatus.FOUND, 60, 0, []⟩, false, true⟩

/-- Fixture: a pull-expired but otherwise live row of `mq0`. -/
def prExpired : PullRequest := ⟨mq0, ⟨false, 0, true⟩, 50⟩

/-- Fixture: a FOUND pull delivering one message at queue offset 5,
acked in time. -/
def envFoundAck : PullEnv := ⟨1, 50, ⟨PullStatus.FOUND, 6, 0, [⟨none, 5⟩]⟩, false, true⟩

/-- Fixture: the same FOUND pull with the ack missing the timeout. -/
def envFoundNoAck : PullEnv := ⟨1, 50, ⟨PullStatus.FOUND, 6, 0, [⟨none, 5⟩]⟩, false, false⟩

/-- Fixture: a subscription on tags `tagA || tagB`. -/
def subTags : SubscriptionData :=
  ⟨"TopicA", "tagA||tagB", false, ["tagA", "tagB"], [hashCode "tagA", hashCode "tagB"], 0⟩

/-- Fixture: the cluster-mode consumer owning `mq0` with the tag
subscription. -/
def stTags : ConsumerState := ⟨[(mq0.key, pr50)], [("TopicA", subTags)], false⟩

/-- Fixture: a FOUND pull with a mixed batch — matching, non-matching and
untagged messages. -/
def envTagged : PullEnv :=
  ⟨1, 50, ⟨PullStatus.FOUND, 9, 0,
    [⟨some "tagA", 6⟩, ⟨some "other", 7⟩, ⟨none, 8⟩]⟩, false, true⟩

/-! ## Helper lemmas -/

theorem executePull_dropped_noop (st : ConsumerState) (env : PullEnv) (mq : MessageQueue)
    (pr : PullRequest) (h1 : tableGet st.processQueueTable mq.key = some pr)
    (h2 : pr.processQueue.droped = true) :
    executePullRequestImmediately st env mq = ⟨st, [], false⟩ := by
  unfold executePullRequestImmediately
  simp [h1, h2]

theorem executePull_found_empty (st : ConsumerState) (env : PullEnv) (mq : MessageQueue)
    (pr0 : PullRequest) (sub : SubscriptionData)
    (h1 : tableGet st.processQueueTable mq.key = some pr0)
    (h2 : pr0.processQueue.droped = false)
    (h3 : subsGet st.subscriptions mq.topic = some sub)
    (h4 : env.pullResult.pullStatus = PullStatus.FOUND)
    (hemp : (applyTagFilter sub env.pullResult.msgFoundList).isEmpty = true) :
    (executePullRequestImmediately st env mq).effects
      = [Effect.pullRequestSent pr0.nextOffset
           (if st.isBroadcast then 0 else jsTruthyOr0 env.readMemoryOffset)]
    ∧ (executePullRequestImmediately st env mq).threw = false := by
  unfold executePullRequestImmediately
  simp [h1, h2, h3, h4, hemp]

theorem executePull_found_ack (st : ConsumerState) (env : PullEnv) (mq : MessageQueue)
    (pr0 : PullRequest) (sub : SubscriptionData)
    (h1 : tableGet st.processQueueTable mq.key = some pr0)
    (h2 : pr0.processQueue.droped = false)
    (h3 : subsGet st.subscriptions mq.topic = some sub)
    (h4 : env.pullResult.pullStatus = PullStatus.FOUND)
    (hemp : (applyTagFilter sub env.pullResult.msgFoundList).isEmpty = false)
    (hack : env.ackWithinTimeout = true) :
    (executePullRequestImmediately st env mq).effects
      = [Effect.pullRequestSent pr0.nextOffset
           (if st.isBroadcast then 0 else jsTruthyOr0 env.readMemoryOffset),
         Effect.emitMessage (applyTagFilter sub env.pullResult.msgFoundList),
         Effect.updateOffset mq
           (lastQueueOffset (applyTagFilter sub env.pullResult.msgFoundList) + 1) false]
    ∧ (executePullRequestImmediately st env mq).threw = false := by
  unfold executePullRequestImmediately
  simp [h1, h2, h3, h4, hemp, hack]

theorem executePull_found_noack (st : ConsumerState) (env : PullEnv) (mq : MessageQueue)
    (pr0 : PullRequest) (sub : SubscriptionData)
    (h1 : tableGet st.processQueueTable mq.key = some pr0)
    (h2 : pr0.processQueue.droped = false)
    (h3 : subsGet st.subscriptions mq.topic = some sub)
    (h4 : env.pullResult.pullStatus = PullStatus.FOUND)
    (hemp : (applyTagFilter sub env.pullResult.msgFoundList).isEmpty = false)
    (hack : env.ackWithinTimeout = false) :
    (executePullRequestImmediately st env mq).effects
      = [Effect.pullRequestSent pr0.nextOffset
           (if st.isBroadcast then 0 else jsTruthyOr0 env.readMemoryOffset),
         Effect.emitMessage (applyTagFilter sub env.pullResult.msgFoundList)]
    ∧ (executePullRequestImmediately st env mq).threw = true := by
  unfold executePullRequestImmediately
  simp [h1, h2, h3, h4, hemp, hack]

theorem jsTruthyOr0_eq_self (o : Int) : jsTruthyOr0 o = o := by
  unfold jsTruthyOr0
  split <;> omega

theorem executePull_effects_head (st : ConsumerState) (env : PullEnv) (mq : MessageQueue)
    (pr0 : PullRequest) (sub : SubscriptionData)
    (h1 : tableGet st.processQueueTable mq.key = some pr0)
    (h2 : pr0.processQueue.droped = false)
    (h3 : subsGet st.subscriptions mq.topic = some sub) :
    (executePullRequestImmediately st env mq).effects.head?
      = some (Effect.pullRequestSent pr0.nextOffset
          (if st.isBroadcast then 0 else jsTruthyOr0 env.readMemoryOffset)) := by
  unfold executePullRequestImmediately
  simp only [h1, h2, h3]
  cases henv : env.pullResult.pullStatus <;>
    simp only [henv] <;>
    (repeat' split) <;>
    simp_all

/-! ## Claims -/

/-- **C1** (code bug).  Claim: on OFFSET_ILLEGAL the worker marks the
queue dropped, waits 10 s, calls `updateOffset(mq, nextBeginOffset)`,
persists it, and the queue's entry is removed from the table, staying
absent until a later rebalance re-adds it.  Evaluating the embedded
`executePullRequestImmediately` at the failing input shows everything up
to the removal happens as claimed — `removeProcessQueue` does delete the
key — but the unconditional `set` of line 313 immediately re-inserts the
row, so the table still has the key (with `droped = true`) when the step
finishes, and the dropped entry blocks the re-add of a later rebalance. -/
theorem c1_offset_illegal_eval :
    (executePullRequestImmediately st0 envOffsetIllegal mq0).effects
      = [Effect.pullRequestSent 50 50, Effect.sleepMs 10000,
         Effect.updateOffset mq0 100 false, Effect.persist mq0,
         Effect.persist mq0, Effect.removeOffset mq0]
    ∧ tableHas (executePullRequestImmediately st0 envOffsetIllegal mq0).state.processQueueTable
        mq0.key = true
    ∧ (tableGet (executePullRequestImmediately st0 envOffsetIllegal mq0).state.processQueueTable
          mq0.key).map (fun r => r.processQueue.droped) = some true := by
  decide

/-- **C2** (counterexample).  The claim states the worker loop exits iff
the table entry is absent or its ProcessQueue is dropped.  At the state
left behind by an OFFSET_ILLEGAL pull — entry present with
`droped = true` — the loop guard of line 201 still says continue, so the
equivalence fails at this concrete input. -/
theorem c2_counterexample :
    ¬ (pullLoopContinues stDropped mq0 = false ↔
        (tableHas stDropped.processQueueTable mq0.key = false ∨
          (tableGet stDropped.processQueueTable mq0.key).map
            (fun r => r.processQueue.droped) = some true)) := by
  decide

/-- **C2** (amended).  The worker loop exits iff the process-queue table
no longer contains the queue's key; the dropped flag is not part of the
loop condition.  A present-but-dropped entry keeps the worker looping,
but each such iteration returns immediately with no state change, no
effects and no throw. -/
theorem c2_amended_worker_exit (st : ConsumerState) (mq : MessageQueue) :
    (pullLoopContinues st mq = false ↔ tableHas st.processQueueTable mq.key = false)
    ∧ (∀ env pr, tableGet st.processQueueTable mq.key = some pr →
        pr.processQueue.droped = true →
        executePullRequestImmediately st env mq = ⟨st, [], false⟩) := by
  refine ⟨Iff.rfl, ?_⟩
  intro env pr h1 h2
  exact executePull_dropped_noop st env mq pr h1 h2

/-- Witness for C2 at the dropped-but-present state. -/
theorem c2_witness :
    executePullRequestImmediately stDropped envMemNeg mq0 = ⟨stDropped, [], false⟩ :=
  (c2_amended_worker_exit stDropped mq0).2 envMemNeg prDropped (by decide) (by decide)

/-- **C3** (counterexample).  The claim states any pull result
outstanding when the drop happens is discarded without `updateOffset`.
With a drop landing while the pull RPC is in flight (FOUND, one message
at offset 0, user acks), the code still processes the batch: the final
row is dropped yet `updateOffset(mq, 1)` was called — there is no re-check
of `droped` after the RPC returns. -/
theorem c3_counterexample :
    (tableGet (executePullRequestImmediately st0 envDropFound mq0).state.processQueueTable
        mq0.key).map (fun r => r.processQueue.droped) = some true
    ∧ Effect.updateOffset mq0 1 false
        ∈ (executePullRequestImmediately st0 envDropFound mq0).effects := by
  decide

/-- **C3** (amended).  Once a ProcessQueue's dropped flag is set, an
iteration of the pull body that begins after the drop performs no pull
and no offset advance (it returns with the state unchanged, no effects
and no throw), and in particular the flag is never reset; but the body
does not re-check the flag after the pull RPC, so a pull result
outstanding when the drop happens is still processed (see the
counterexample). -/
theorem c3_amended_drop_semantics (st : ConsumerState) (env : PullEnv) (mq : MessageQueue)
    (pr : PullRequest) (h1 : tableGet st.processQueueTable mq.key = some pr)
    (h2 : pr.processQueue.droped = true) :
    executePullRequestImmediately st env mq = ⟨st, [], false⟩
    ∧ (executePullRequestImmediately st env mq).effects = []
    ∧ tableGet (executePullRequestImmediately st env mq).state.processQueueTable mq.key
        = some pr := by
  have h := executePull_dropped_noop st env mq pr h1 h2
  rw [h]
  exact ⟨rfl, rfl, h1⟩

/-- Witness for C3 at the dropped-but-present state. -/
theorem c3_witness :
    executePullRequestImmediately stDropped envDropFound mq0 = ⟨stDropped, [], false⟩
    ∧ (executePullRequestImmediately stDropped envDropFound mq0).effects = []
    ∧ tableGet (executePullRequestImmediately stDropped envDropFound mq0).state.processQueueTable
        mq0.key = some prDropped :=
  c3_amended_drop_semantics stDropped envDropFound mq0 prDropped (by decide) (by decide)

/-- **C5**.  On a FOUND pull whose post-filter batch is non-empty: an ack
within the per-batch delivery timeout (the hard-coded 3 s timer of line
281, modelled by `env.ackWithinTimeout`) leads to
`updateOffset(mq, lastMsgQueueOffset + 1)` for the last message of the
delivered batch and a normal return; a missed ack makes the pull body
throw and no `updateOffset` is recorded for that batch. -/
theorem c5_found_ack_timeout (st : ConsumerState) (env : PullEnv) (mq : MessageQueue)
    (pr0 : PullRequest) (sub : SubscriptionData)
    (h1 : tableGet st.processQueueTable mq.key = some pr0)
    (h2 : pr0.processQueue.droped = false)
    (h3 : subsGet st.subscriptions mq.topic = some sub)
    (h4 : env.pullResult.pullStatus = PullStatus.FOUND)
    (hemp : (applyTagFilter sub env.pullResult.msgFoundList).isEmpty = false) :
    (env.ackWithinTimeout = true →
      (executePullRequestImmediately st env mq).threw = false
      ∧ ∀ lm, (applyTagFilter sub env.pullResult.msgFoundList).getLast? = some lm →
          Effect.updateOffset mq (lm.queueOffset + 1) false
            ∈ (executePullRequestImmediately st env mq).effects)
    ∧ (env.ackWithinTimeout = false →
      (executePullRequestImmediately st env mq).threw = true
      ∧ ∀ mq2 o io, Effect.updateOffset mq2 o io
            ∉ (executePullRequestImmediately st env mq).effects) := by
  constructor
  · intro hack
    have h := executePull_found_ack st env mq pr0 sub h1 h2 h3 h4 hemp hack
    refine ⟨h.2, ?_⟩
    intro lm hlm
    rw [h.1]
    have hl : lastQueueOffset (applyTagFilter sub env.pullResult.msgFoundList)
        = lm.queueOffset := by
      unfold lastQueueOffset
      rw [hlm]
      rfl
    rw [hl]
    simp
  · intro hack
    have h := executePull_found_noack st env mq pr0 sub h1 h2 h3 h4 hemp hack
    refine ⟨h.2, ?_⟩
    intro mq2 o io
    rw [h.1]
    simp

/-- Witness for C5: one message at offset 5, acked, advances the offset
to 6; the same pull without the ack throws and records no offset
advance. -/
theorem c5_witness :
    ((executePullRequestImmediately st0 envFoundAck mq0).threw = false
      ∧ Effect.updateOffset mq0 6 false
          ∈ (executePullRequestImmediately st0 envFoundAck mq0).effects)
    ∧ ((executePullRequestImmediately st0 envFoundNoAck mq0).threw = true
      ∧ Effect.updateOffset mq0 6 false
          ∉ (executePullRequestImmediately st0 envFoundNoAck mq0).effects) := by
  constructor
  · have h := (c5_found_ack_timeout st0 envFoundAck mq0 pr50 subStar (by decide) (by decide)
      (by decide) (by decide) (by decide)).1 (by decide)
    exact ⟨h.1, by simpa using h.2 ⟨none, 5⟩ (by decide)⟩
  · have h := (c5_found_ack_timeout st0 envFoundNoAck mq0 pr50 subStar (by decide) (by decide)
      (by decide) (by decide) (by decide)).2 (by decide)
    exact ⟨h.1, h.2 mq0 6 false⟩

/-- **C6** (counterexample).  The claim states the pull header's
commitOffset is 0 whenever the in-memory offset is not strictly positive,
in particular when `readOffset` reports -1.  At a cluster-mode pull with
`readOffset(mq, READ_FROM_MEMORY) = -1` the header actually carries
commitOffset -1: line 249 tests JS truthiness (`if (offset)`), not
`offset > 0`, so -1 passes through. -/
theorem c6_counterexample :
    (executePullRequestImmediately st0 envMemNeg mq0).effects
      = [Effect.pullRequestSent 50 (-1)]
    ∧ (executePullRequestImmediately st0 envMemNeg mq0).effects
        ≠ [Effect.pullRequestSent 50 0] := by
  decide

/-- **C6** (amended).  On every pull issued, the commitOffset sent in the
header equals the in-memory `readOffset(mq, READ_FROM_MEMORY)` value
verbatim in cluster mode — the truthiness test forwards every non-zero
value, including -1 for an absent offset, and 0 maps to 0 — and equals 0
in broadcast mode. -/
theorem c6_amended_commit_offset (st : ConsumerState) (env : PullEnv) (mq : MessageQueue)
    (pr0 : PullRequest) (sub : SubscriptionData)
    (h1 : tableGet st.processQueueTable mq.key = some pr0)
    (h2 : pr0.processQueue.droped = false)
    (h3 : subsGet st.subscriptions mq.topic = some sub) :
    (executePullRequestImmediately st env mq).effects.head?
      = some (Effect.pullRequestSent pr0.nextOffset
          (if st.isBroadcast then 0 else env.readMemoryOffset)) := by
  rw [executePull_effects_head st env mq pr0 sub h1 h2 h3, jsTruthyOr0_eq_self]

/-- Witness for C6: the cluster-mode pull with in-memory offset -1 sends
commitOffset -1. -/
theorem c6_witness :
    (executePullRequestImmediately st0 envMemNeg mq0).effects.head?
      = some (Effect.pullRequestSent 50 (-1)) := by
  have h := c6_amended_commit_offset st0 envMemNeg mq0 pr50 subStar
    (by decide) (by decide) (by decide)
  simpa [st0, envMemNeg, pr50] using h

theorem build_no_empty_tag (g t : String) (s : Option String) (v : Int)
    (sub : SubscriptionData)
    (h : buildSubscriptionData g t s v = Except.ok sub) : "" ∉ sub.tagsSet := by
  unfold buildSubscriptionData at h
  cases s with
  | none =>
    simp only [Except.ok.injEq] at h
    subst h
    simp
  | some s =>
    simp only [] at h
    split at h
    · simp only [Except.ok.injEq] at h
      subst h
      simp
    · split at h
      · simp only [Except.ok.injEq] at h
        subst h
        intro hmem
        simp only [List.mem_filter] at hmem
        simp at hmem
      · exact absurd h (by simp)

theorem tagMatch_eq_true_iff (tagsSet : List String) (m : Msg) :
    tagMatch tagsSet m = true ↔ ∃ tg, m.tags = some tg ∧ tg ≠ "" ∧ tg ∈ tagsSet := by
  cases htags : m.tags <;> simp [tagMatch, htags]

theorem applyTagFilter_active (sub : SubscriptionData) (l : List Msg)
    (hts : sub.tagsSet ≠ []) (hcf : sub.classFilterMode = false) :
    applyTagFilter sub l = l.filter (tagMatch sub.tagsSet) := by
  simp [applyTagFilter, hts, hcf]

/-- **C8**.  With a non-empty `tagsSet` and class-filter mode off, every
batch the FOUND branch emits contains only messages whose tags value is a
member of `tagsSet`; and — since no subscription built by
`buildSubscriptionData` ever holds the empty tag — the batch is exactly
the fetched list filtered to the messages whose tags field is a member of
`tagsSet`. -/
theorem c8_tag_filter (st : ConsumerState) (env : PullEnv) (mq : MessageQueue)
    (pr0 : PullRequest) (sub : SubscriptionData)
    (h1 : tableGet st.processQueueTable mq.key = some pr0)
    (h2 : pr0.processQueue.droped = false)
    (h3 : subsGet st.subscriptions mq.topic = some sub)
    (h4 : env.pullResult.pullStatus = PullStatus.FOUND)
    (hts : sub.tagsSet ≠ []) (hcf : sub.classFilterMode = false) :
    (∀ b, Effect.emitMessage b ∈ (executePullRequestImmediately st env mq).effects →
      (∀ m ∈ b, ∃ tg, m.tags = some tg ∧ tg ∈ sub.tagsSet)
      ∧ ("" ∉ sub.tagsSet →
          b = env.pullResult.msgFoundList.filter
            (fun m => match m.tags with
              | some tg => sub.tagsSet.contains tg
              | none => false)))
    ∧ (∀ g tp s v sub2, buildSubscriptionData g tp s v = Except.ok sub2 →
        "" ∉ sub2.tagsSet) := by
  constructor
  · intro b hb
    have hbeq : b = applyTagFilter sub env.pullResult.msgFoundList := by
      by_cases hemp : (applyTagFilter sub env.pullResult.msgFoundList).isEmpty
      · have h := executePull_found_empty st env mq pr0 sub h1 h2 h3 h4 hemp
        rw [h.1] at hb
        simp at hb
      · rw [Bool.not_eq_true] at hemp
        by_cases hack : env.ackWithinTimeout
        · have h := executePull_found_ack st env mq pr0 sub h1 h2 h3 h4 hemp hack
          rw [h.1] at hb
          simpa using hb
        · rw [Bool.not_eq_true] at hack
          have h := executePull_found_noack st env mq pr0 sub h1 h2 h3 h4 hemp hack
          rw [h.1] at hb
          simpa using hb
    subst hbeq
    rw [applyTagFilter_active sub _ hts hcf]
    constructor
    · intro m hm
      rw [List.mem_filter] at hm
      obtain ⟨tg, htg, _, hmem⟩ := (tagMatch_eq_true_iff sub.tagsSet m).1 hm.2
      exact ⟨tg, htg, hmem⟩
    · intro hne
      apply List.filter_congr
      intro m _
      cases htags : m.tags with
      | none => simp [tagMatch, htags]
      | some tg =>
        by_cases htg : tg = ""
        · subst htg
          simp [tagMatch, htags]
          intro hmem
          exact absurd hmem hne
        · simp [tagMatch, htags, htg]
  · exact fun g tp s v sub2 h => build_no_empty_tag g tp s v sub2 h

/-- Witness for C8: the mixed batch is filtered to the single `tagA`
message, whose tag is in the subscription's tag set. -/
theorem c8_witness :
    (∀ m ∈ [Msg.mk (some "tagA") 6], ∃ tg, m.tags = some tg ∧ tg ∈ subTags.tagsSet)
    ∧ [Msg.mk (some "tagA") 6]
        = envTagged.pullResult.msgFoundList.filter
            (fun m => match m.tags with
              | some tg => subTags.tagsSet.contains tg
              | none => false) := by
  have h := (c8_tag_filter stTags envTagged mq0 pr50 subTags (by decide) (by decide)
    (by decide) (by decide) (by decide) (by decide)).1
    [Msg.mk (some "tagA") 6] (by decide)
  exact ⟨h.1, h.2 (by decide)⟩

/-- **C4**.  `computePullFromWhere` returns: the stored offset whenever
`readOffset(mq, READ_FROM_STORE)` is non-negative (under every policy);
under the CONSUME_FROM_LAST_OFFSET family with stored offset -1, 0 for a
retry topic and `mqClient.maxOffset(mq)` otherwise; under
CONSUME_FROM_FIRST_OFFSET with stored offset -1, 0; under
CONSUME_FROM_TIMESTAMP with stored offset -1, `maxOffset` for a retry
topic and `searchOffset` at the configured timestamp otherwise; and -1
whenever the read, or the max/search lookup the taken branch awaits,
throws. -/
theorem c4_compute_pull_from_where :
    (∀ cfw topic mo so (v : Int), 0 ≤ v →
      computePullFromWhere cfw topic (Except.ok v) mo so = v)
    ∧ (∀ cfw topic so (m : Int), isLastOffsetPolicy cfw = true →
        isRetryTopic topic = true →
        computePullFromWhere cfw topic (Except.ok (-1)) (Except.ok m) so = 0)
    ∧ (∀ cfw topic so (m : Int), isLastOffsetPolicy cfw = true →
        isRetryTopic topic = false →
        computePullFromWhere cfw topic (Except.ok (-1)) (Except.ok m) so = m)
    ∧ (∀ topic mo so,
        computePullFromWhere ConsumeFromWhere.CONSUME_FROM_FIRST_OFFSET topic
          (Except.ok (-1)) mo so = 0)
    ∧ (∀ topic so (m : Int), isRetryTopic topic = true →
        computePullFromWhere ConsumeFromWhere.CONSUME_FROM_TIMESTAMP topic
          (Except.ok (-1)) (Except.ok m) so = m)
    ∧ (∀ topic mo (s : Int), isRetryTopic topic = false →
        computePullFromWhere ConsumeFromWhere.CONSUME_FROM_TIMESTAMP topic
          (Except.ok (-1)) mo (Except.ok s) = s)
    ∧ (∀ cfw topic mo so,
        computePullFromWhere cfw topic (Except.error ()) mo so = -1)
    ∧ (∀ cfw topic so, isLastOffsetPolicy cfw = true → isRetryTopic topic = false →
        computePullFromWhere cfw topic (Except.ok (-1)) (Except.error ()) so = -1)
    ∧ (∀ topic so, isRetryTopic topic = true →
        computePullFromWhere ConsumeFromWhere.CONSUME_FROM_TIMESTAMP topic
          (Except.ok (-1)) (Except.error ()) so = -1)
    ∧ (∀ topic mo, isRetryTopic topic = false →
        computePullFromWhere ConsumeFromWhere.CONSUME_FROM_TIMESTAMP topic
          (Except.ok (-1)) mo (Except.error ())= -1) := by
  have hneg : ¬((-1 : Int) ≥ 0) := by norm_num
  refine ⟨?_, ?_, ?_, ?_, ?_, ?_, ?_, ?_, ?_, ?_⟩
  · intro cfw topic mo so v hv
    cases cfw <;> simp [computePullFromWhere, ge_iff_le, hv]
  · intro cfw topic so m hp hr
    cases cfw <;> simp_all [computePullFromWhere, isLastOffsetPolicy, hneg]
  · intro cfw topic so m hp hr
    cases cfw <;> simp_all [computePullFromWhere, isLastOffsetPolicy, hneg]
  · intro topic mo so
    simp [computePullFromWhere, hneg]
  · intro topic so m hr
    simp_all [computePullFromWhere, hneg]
  · intro topic mo s hr
    simp_all [computePullFromWhere, hneg]
  · intro cfw topic mo so
    simp [computePullFromWhere]
  · intro cfw topic so hp hr
    cases cfw <;> simp_all [computePullFromWhere, isLastOffsetPolicy, hneg]
  · intro topic so hr
    simp_all [computePullFromWhere, hneg]
  · intro topic mo hr
    simp_all [computePullFromWhere, hneg]

/-- Witness for C4 at concrete seeds: stored-offset reuse, retry-head,
tail, first-offset, timestamp search, and the thrown read. -/
theorem c4_witness :
    computePullFromWhere ConsumeFromWhere.CONSUME_FROM_LAST_OFFSET "TopicA"
        (Except.ok 7) (Except.ok 42) (Except.ok 5) = 7
    ∧ computePullFromWhere ConsumeFromWhere.CONSUME_FROM_LAST_OFFSET "%RETRY%grp"
        (Except.ok (-1)) (Except.ok 42) (Except.ok 5) = 0
    ∧ computePullFromWhere ConsumeFromWhere.CONSUME_FROM_LAST_OFFSET "TopicA"
        (Except.ok (-1)) (Except.ok 42) (Except.ok 5) = 42
    ∧ computePullFromWhere ConsumeFromWhere.CONSUME_FROM_FIRST_OFFSET "TopicA"
        (Except.ok (-1)) (Except.ok 42) (Except.ok 5) = 0
    ∧ computePullFromWhere ConsumeFromWhere.CONSUME_FROM_TIMESTAMP "TopicA"
        (Except.ok (-1)) (Except.ok 42) (Except.ok 5) = 5
    ∧ computePullFromWhere ConsumeFromWhere.CONSUME_FROM_LAST_OFFSET "TopicA"
        (Except.error ()) (Except.ok 42) (Except.ok 5) = -1 := by
  refine ⟨?_, ?_, ?_, ?_, ?_, ?_⟩
  · exact c4_compute_pull_from_where.1 _ "TopicA" _ _ 7 (by norm_num)
  · exact c4_compute_pull_from_where.2.1 _ "%RETRY%grp" _ 42 (by decide) (by decide)
  · exact c4_compute_pull_from_where.2.2.1 _ "TopicA" _ 42 (by decide) (by decide)
  · exact c4_compute_pull_from_where.2.2.2.1 "TopicA" _ _
  · exact c4_compute_pull_from_where.2.2.2.2.2.1 "TopicA" _ 5 (by decide)
  · exact c4_compute_pull_from_where.2.2.2.2.2.2.1 _ "TopicA" _ _

theorem removePassStep_eq (topic : String) (mqSet : List MessageQueue)
    (acc : RemovePassOut) (e : TableEntry) :
    removePassStep topic mqSet acc e =
      if evictsEntry topic mqSet e then
        { table := tableDelete acc.table e.1,
          effects := acc.effects ++ evictEffects e,
          changed := true,
          droppedKeys := acc.droppedKeys ++ [e.1] }
      else acc := by
  unfold removePassStep evictsEntry evictEffects
  by_cases h1 : topic = e.2.messageQueue.topic
  · by_cases h2 : mqSet.any (fun m => m.key = e.2.messageQueue.key)
    · simp [h1, h2]
    · simp [h1, h2]
  · by_cases h3 : e.2.processQueue.isPullExpired
    · simp [h1, h3]
    · simp [h1, h3]

theorem removePass_foldl (topic : String) (mqSet : List MessageQueue)
    (l : List TableEntry) : ∀ acc : RemovePassOut,
    l.foldl (removePassStep topic mqSet) acc =
      { table := acc.table.filter
          (fun e => !(l.any (fun x => evictsEntry topic mqSet x && decide (x.1 = e.1)))),
        effects := acc.effects
          ++ (l.filter (evictsEntry topic mqSet)).flatMap evictEffects,
        changed := acc.changed || l.any (evictsEntry topic mqSet),
        droppedKeys := acc.droppedKeys
          ++ (l.filter (evictsEntry topic mqSet)).map (fun e => e.1) } := by
  induction l with
  | nil => intro acc; simp
  | cons x l ih =>
    intro acc
    rw [List.foldl_cons, removePassStep_eq, ih]
    by_cases hx : evictsEntry topic mqSet x
    · rw [if_pos hx]
      congr 1
      · unfold tableDelete
        rw [List.filter_filter]
        apply List.filter_congr
        intro e _
        by_cases hk : x.1 = e.1
        · simp [hk, hx]
        · simp [hk, hx]
          intro _
          exact fun h => hk h.symm
      · simp [hx, List.append_assoc]
      · simp [hx]
      · simp [hx, List.append_assoc]
    · rw [if_neg hx]
      rw [Bool.not_eq_true] at hx
      congr 1
      · apply List.filter_congr
        intro e _
        simp [hx]
      · simp [hx]
      · simp [hx]
      · simp [hx]

theorem evictsEntry_eq_true_iff (topic : String) (mqSet : List MessageQueue)
    (e : TableEntry) :
    evictsEntry topic mqSet e = true ↔
      ((topic = e.2.messageQueue.topic ∧ ∀ m ∈ mqSet, m.key ≠ e.2.messageQueue.key)
        ∨ (topic ≠ e.2.messageQueue.topic ∧ e.2.processQueue.isPullExpired = true)) := by
  simp [evictsEntry]

theorem table_entry_eq_of_fst_eq {tbl : List TableEntry}
    (hnd : (tbl.map Prod.fst).Nodup) {x y : TableEntry}
    (hx : x ∈ tbl) (hy : y ∈ tbl) (h : x.1 = y.1) : x = y :=
  List.inj_on_of_nodup_map hnd hx hy h

/-- **C7** (counterexample).  The claim requires the removal pass to also
evict assigned entries of the rebalanced topic when they are pull
expired.  With a table holding exactly one such entry — topic matches, in
the assigned set, `isPullExpired = true` — the pass leaves everything
untouched: the expiry arm is the `else` of the topic test (line 467) and
is never consulted for entries of the rebalanced topic. -/
theorem c7_counterexample :
    updateProcessQueueTableRemovePass "TopicA" [mq0] [(mq0.key, prExpired)]
      = { table := [(mq0.key, prExpired)], effects := [],
          changed := false, droppedKeys := [] } := by
  decide

/-- **C7** (amended).  In the removal pass, an entry is dropped, its
offset persisted and removed, and its key deleted (with `changed`
reported) iff its topic equals the rebalanced topic and its queue key is
not among the assigned queues, or its topic differs and its queue is
pull expired; entries of the rebalanced topic that are in the assigned
set survive untouched — even when pull expired. -/
theorem c7_amended_remove_pass (topic : String) (mqSet : List MessageQueue)
    (tbl : List TableEntry) (hnd : (tbl.map Prod.fst).Nodup)
    (e : TableEntry) (he : e ∈ tbl) :
    (((topic = e.2.messageQueue.topic ∧ ∀ m ∈ mqSet, m.key ≠ e.2.messageQueue.key)
        ∨ (topic ≠ e.2.messageQueue.topic ∧ e.2.processQueue.isPullExpired = true)) →
      e.1 ∈ (updateProcessQueueTableRemovePass topic mqSet tbl).droppedKeys
      ∧ tableHas (updateProcessQueueTableRemovePass topic mqSet tbl).table e.1 = false
      ∧ Effect.persist e.2.messageQueue
          ∈ (updateProcessQueueTableRemovePass topic mqSet tbl).effects
      ∧ Effect.removeOffset e.2.messageQueue
          ∈ (updateProcessQueueTableRemovePass topic mqSet tbl).effects
      ∧ (updateProcessQueueTableRemovePass topic mqSet tbl).changed = true)
    ∧ ((topic = e.2.messageQueue.topic ∧ ∃ m ∈ mqSet, m.key = e.2.messageQueue.key) →
      e ∈ (updateProcessQueueTableRemovePass topic mqSet tbl).table
      ∧ e.1 ∉ (updateProcessQueueTableRemovePass topic mqSet tbl).droppedKeys) := by
  unfold updateProcessQueueTableRemovePass
  rw [removePass_foldl]
  constructor
  · intro hcond
    have hev : evictsEntry topic mqSet e = true :=
      (evictsEntry_eq_true_iff topic mqSet e).2 hcond
    have hef : e ∈ tbl.filter (evictsEntry topic mqSet) :=
      List.mem_filter.2 ⟨he, hev⟩
    refine ⟨?_, ?_, ?_, ?_, ?_⟩
    · simp only [List.mem_append]
      exact Or.inr (List.mem_map.2 ⟨e, hef, rfl⟩)
    · simp only [tableHas]
      rw [List.any_eq_false]
      intro y hy
      rw [List.mem_filter] at hy
      simp only [Bool.not_eq_true', List.any_eq_false] at hy
      intro hkey
      have hk : y.1 = e.1 := by simpa using hkey
      have hcontra := hy.2 e he
      simp [hev, hk] at hcontra
    · simp only [List.mem_append]
      exact Or.inr (List.mem_flatMap.2 ⟨e, hef, by simp [evictEffects]⟩)
    · simp only [List.mem_append]
      exact Or.inr (List.mem_flatMap.2 ⟨e, hef, by simp [evictEffects]⟩)
    · simp only [Bool.or_eq_true]
      exact Or.inr (List.any_eq_true.2 ⟨e, he, hev⟩)
  · intro hcond
    have hev : evictsEntry topic mqSet e = false := by
      rw [← Bool.not_eq_true, evictsEntry_eq_true_iff]
      rintro (⟨_, hall⟩ | ⟨hne, _⟩)
      · obtain ⟨m, hm, hk⟩ := hcond.2
        exact hall m hm hk
      · exact hne hcond.1
    constructor
    · rw [List.mem_filter]
      refine ⟨he, ?_⟩
      simp only [Bool.not_eq_true', List.any_eq_false]
      intro x hxmem
      by_cases hk : x.1 = e.1
      · have : x = e := table_entry_eq_of_fst_eq hnd hxmem he hk
        subst this
        simp [hev]
      · simp [hk]
    · simp only [List.mem_append, not_or]
      constructor
      · simp
      · intro hmem
        obtain ⟨y, hyf, hyk⟩ := List.mem_map.1 hmem
        rw [List.mem_filter] at hyf
        have : y = e := table_entry_eq_of_fst_eq hnd hyf.1 he hyk
        subst this
        rw [hyf.2] at hev
        exact absurd hev (by simp)

/-- Witness for C7: the pass on a two-entry table — an unassigned entry
of the rebalanced topic and an expired entry of another topic — drops
and deletes both. -/
theorem c7_witness :
    mq0.key ∈ (updateProcessQueueTableRemovePass "TopicA" [] [(mq0.key, pr50)]).droppedKeys
    ∧ tableHas (updateProcessQueueTableRemovePass "TopicA" [] [(mq0.key, pr50)]).table
        mq0.key = false
    ∧ Effect.persist mq0
        ∈ (updateProcessQueueTableRemovePass "TopicA" [] [(mq0.key, pr50)]).effects
    ∧ (updateProcessQueueTableRemovePass "TopicA" [] [(mq0.key, pr50)]).changed = true := by
  have h := (c7_amended_remove_pass "TopicA" [] [(mq0.key, pr50)] (by decide)
    (mq0.key, pr50) (by simp)).1 (Or.inl ⟨by decide, by simp⟩)
  exact ⟨h.1, h.2.1, h.2.2.1, h.2.2.2.2⟩

theorem prependChar_ne_nil (c : Char) (l : List String) : prependChar c l ≠ [] := by
  unfold prependChar
  split <;> simp

theorem splitDP_ne_nil (l : List Char) : splitDP l ≠ [] := by
  rw [splitDP.eq_def]
  split
  · simp
  · simp
  · exact prependChar_ne_nil _ _

theorem splitDP_cons_of_ne (c : Char) (rest : List Char) (hc : c ≠ '|') :
    splitDP (c :: rest) = prependChar c (splitDP rest) :=
  splitDP.eq_3 c rest (fun _ h _ => absurd h hc)

theorem prependChar_mk (c : Char) (cs : List Char) (rest : List String) :
    prependChar c (String.mk cs :: rest) = String.mk (c :: cs) :: rest := rfl

theorem splitDP_no_pipe (cs : List Char) (h : ∀ c ∈ cs, c ≠ '|') :
    splitDP cs = [String.mk cs] := by
  induction cs with
  | nil => rfl
  | cons c cs ih =>
    rw [splitDP_cons_of_ne c cs (h c (List.mem_cons_self c cs)),
      ih (fun x hx => h x (List.mem_cons_of_mem c hx))]
    exact prependChar_mk c cs []

theorem splitDP_append_sep (cs : List Char) (rest : List Char)
    (h : ∀ c ∈ cs, c ≠ '|') :
    splitDP (cs ++ '|' :: '|' :: rest) = String.mk cs :: splitDP rest := by
  induction cs with
  | nil => rw [List.nil_append, splitDP.eq_2]
  | cons c cs ih =>
    rw [List.cons_append,
      splitDP_cons_of_ne c _ (h c (List.mem_cons_self c cs)),
      ih (fun x hx => h x (List.mem_cons_of_mem c hx))]
    exact prependChar_mk c _ _

theorem joinTags_cons_cons (t t2 : String) (ts : List String) :
    joinTags (t :: t2 :: ts) = t ++ "||" ++ joinTags (t2 :: ts) := rfl

theorem jsSplit_joinTags (ts : List String) (hne : ts ≠ [])
    (h : ∀ t ∈ ts, ∀ c ∈ t.data, c ≠ '|') :
    jsSplitDoublePipe (joinTags ts) = ts := by
  induction ts with
  | nil => exact absurd rfl hne
  | cons t ts ih =>
    cases ts with
    | nil =>
      show splitDP t.data = [t]
      rw [splitDP_no_pipe t.data (h t (List.mem_cons_self t []))]
    | cons t2 ts2 =>
      show splitDP (joinTags (t :: t2 :: ts2)).data = t :: t2 :: ts2
      rw [joinTags_cons_cons]
      have hdata : (t ++ "||" ++ joinTags (t2 :: ts2)).data
          = t.data ++ '|' :: '|' :: (joinTags (t2 :: ts2)).data := by
        simp [String.data_append]
      rw [hdata, splitDP_append_sep t.data _ (h t (List.mem_cons_self t _))]
      have ihr := ih (by simp) (fun x hx => h x (List.mem_cons_of_mem t hx))
      show String.mk t.data :: splitDP (joinTags (t2 :: ts2)).data = t :: t2 :: ts2
      rw [show splitDP (joinTags (t2 :: ts2)).data = jsSplitDoublePipe (joinTags (t2 :: ts2)) from rfl,
        ihr]

/-- **C9** (counterexample).  The claim says `buildSubscriptionData` puts
the distinct non-empty tokens into `tagsSet` and rejects an empty overall
expression with a parse error.  For the expression `a||a` the source
pushes both occurrences — `tagsSet` holds `a` twice, with no
deduplication — so "distinct" fails at this input (and no input ever
reaches the parse-error branch, see C10). -/
theorem c9_counterexample :
    (buildSubscriptionData "group" "TopicA" (some "a||a") 0).toOption
      = some ⟨"TopicA", "a||a", false, ["a", "a"], [97, 97], 0⟩
    ∧ ¬ (["a", "a"] : List String).Nodup := by
  constructor
  · decide
  · simp

/-- **C9** (amended).  `buildSubscriptionData` maps a null, empty-string
or `*` expression to `subString = "*"` with empty `tagsSet` and
`codeSet`; any other expression is split on `||`, each token trimmed, and
the non-empty tokens appended to `tagsSet` in order with duplicates
retained, `codeSet` holding their 32-bit string hashes; no expression is
rejected (the parse-error branch is unreachable).  The split-then-trim
behaviour is stated through reassembled token lists: splitting the
rejoined expression recovers exactly the original tokens. -/
theorem c9_amended_build_subscription :
    (∀ g t (v : Int), buildSubscriptionData g t none v
        = Except.ok ⟨t, "*", false, [], [], v⟩)
    ∧ (∀ g t (v : Int), buildSubscriptionData g t (some "*") v
        = Except.ok ⟨t, "*", false, [], [], v⟩)
    ∧ (∀ g t (v : Int), buildSubscriptionData g t (some "") v
        = Except.ok ⟨t, "*", false, [], [], v⟩)
    ∧ (∀ g t (v : Int) (ts : List String), ts ≠ [] →
        (∀ tok ∈ ts, ∀ c ∈ tok.data, c ≠ '|') →
        joinTags ts ≠ "*" → joinTags ts ≠ "" →
        buildSubscriptionData g t (some (joinTags ts)) v
          = Except.ok ⟨t, joinTags ts, false,
              (ts.map jsTrim).filter (fun x => x ≠ ""),
              ((ts.map jsTrim).filter (fun x => x ≠ "")).map hashCode, v⟩) := by
  refine ⟨?_, ?_, ?_, ?_⟩
  · intro g t v; rfl
  · intro g t v
    simp [buildSubscriptionData]
  · intro g t v
    simp [buildSubscriptionData]
  · intro g t v ts hne hpf hstar hemp
    have hsplit : jsSplitDoublePipe (joinTags ts) = ts := jsSplit_joinTags ts hne hpf
    simp only [buildSubscriptionData, hsplit]
    rw [if_neg (by rintro (h | h) <;> [exact hstar h; exact hemp h])]
    rw [if_pos (fun h => hne (List.length_eq_zero.1 h))]

/-- Witness for C9: the token list `[" a ", "b", "b"]` rejoined is
`" a ||b||b"`; parsing keeps the trimmed non-empty tokens in order with
the duplicate retained. -/
theorem c9_witness :
    buildSubscriptionData "group" "TopicA" (some (joinTags [" a ", "b", "b"])) 0
      = Except.ok ⟨"TopicA", joinTags [" a ", "b", "b"], false,
          ["a", "b", "b"], [97, 98, 98], 0⟩ := by
  have h := c9_amended_build_subscription.2.2.2 "group" "TopicA" 0 [" a ", "b", "b"]
    (by simp) (by decide) (by decide) (by decide)
  rw [h]
  rfl

/-- **C10**.  For every expression, `buildSubscriptionData` returns a
subscription without throwing — splitting any string on `||` yields at
least one element, so the parse-error branch is unreachable; an
expression whose tokens all trim to empty (such as `||`) yields an empty
`tagsSet`; and the pull-time tag filter with an empty `tagsSet` passes
every message through unchanged. -/
theorem c10_no_throw_and_empty_tags :
    (∀ g t s (v : Int), ∃ sub, buildSubscriptionData g t s v = Except.ok sub)
    ∧ (∀ g t (v : Int) sub, buildSubscriptionData g t (some "||") v = Except.ok sub →
        sub.tagsSet = [])
    ∧ (∀ sub msgs, sub.tagsSet = [] → applyTagFilter sub msgs = msgs) := by
  refine ⟨?_, ?_, ?_⟩
  · intro g t s v
    cases s with
    | none => exact ⟨_, rfl⟩
    | some s =>
      by_cases hs : s = "*" ∨ s = ""
      · refine ⟨⟨t, "*", false, [], [], v⟩, ?_⟩
        simp only [buildSubscriptionData]
        rw [if_pos hs]
      · refine ⟨⟨t, s, false,
          ((jsSplitDoublePipe s).map jsTrim).filter (fun x => decide (x ≠ "")),
          (((jsSplitDoublePipe s).map jsTrim).filter (fun x => decide (x ≠ ""))).map hashCode,
          v⟩, ?_⟩
        simp only [buildSubscriptionData]
        rw [if_neg hs,
          if_pos (show (jsSplitDoublePipe s).length ≠ 0 from
            fun h => absurd (List.length_eq_zero.1 h) (splitDP_ne_nil s.data))]
  · intro g t v sub h
    have hb : buildSubscriptionData g t (some "||") v
        = Except.ok ⟨t, "||", false, [], [], v⟩ := by
      simp only [buildSubscriptionData]
      rw [if_neg (by decide), if_pos (by decide)]
      rfl
    rw [hb] at h
    injection h with h2
    rw [← h2]
  · intro sub msgs h
    simp [applyTagFilter, h]

/-- Witness for C10: the all-empty-tokens expression `||` parses to an
empty tag set, and the filter with that subscription delivers the whole
fetched batch. -/
theorem c10_witness :
    (∃ sub, buildSubscriptionData "group" "TopicA" (some "||") 0 = Except.ok sub)
    ∧ applyTagFilter ⟨"TopicA", "||", false, [], [], 0⟩
        [Msg.mk (some "x") 1, Msg.mk none 2]
      = [Msg.mk (some "x") 1, Msg.mk none 2] := by
  constructor
  · exact c10_no_throw_and_empty_tags.1 "group" "TopicA" (some "||") 0
  · exact c10_no_throw_and_empty_tags.2.2 ⟨"TopicA", "||", false, [], [], 0⟩
      [Msg.mk (some "x") 1, Msg.mk none 2] rfl

end AliOns
